import Mathlib

/-!
# Verification of the ESP32 desktop-configurator serial core

This file embeds the serial-communication core of `main.py` — the
`SerialWorker` thread (connection handling, write path, polling read
loop) and the `MainWindow.parse_response` response classifier — as
executable Lean definitions, and proves the specified properties about
them.

Python strings are modelled as `List Char`; Python exceptions that the
source catches are modelled with `Option`; the Qt signals emitted by the
worker and the widget updates performed by the classifier are modelled
as explicit event values, so that every observable effect of the source
is a value the theorems can speak about.
-/

set_option maxRecDepth 8000

namespace Esp32

/-- A Python string, modelled as its list of characters. -/
abbrev PyStr := List Char

/-- Coerce a Lean string literal to the `PyStr` model. -/
def str (s : String) : PyStr := s.data

/-- Python `str.isspace` on a single character, restricted to the ASCII
whitespace the serial protocol can produce. -/
def pyIsSpace (c : Char) : Bool :=
  c = ' ' || c = '\t' || c = '\n' || c = '\r' || c = '\x0b' || c = '\x0c'

/-- Python `str.strip()`: remove whitespace from both ends. -/
def pyStrip (s : PyStr) : PyStr :=
  ((s.dropWhile pyIsSpace).reverse.dropWhile pyIsSpace).reverse

/-- Python `str.isdigit()` on ASCII text: non-empty and all characters
are decimal digits. -/
def pyIsdigit (s : PyStr) : Bool :=
  !s.isEmpty && s.all Char.isDigit

/-- Numeric value of a string of decimal digits. -/
def digitsVal (s : PyStr) : Nat :=
  s.foldl (fun a c => 10 * a + (c.toNat - 48)) 0

/-- Python `int(s)` on ASCII text: strip whitespace, allow an optional
sign, then require a non-empty run of decimal digits; `none` models the
`ValueError` the source catches. -/
def pyInt (s : PyStr) : Option Int :=
  let t := pyStrip s
  if pyIsdigit t then some (digitsVal t)
  else
    match t with
    | '-' :: rest => if pyIsdigit rest then some (-(digitsVal rest : Int)) else none
    | '+' :: rest => if pyIsdigit rest then some ((digitsVal rest : Int)) else none
    | _ => none

/-- Python `s.split(sep)` for a one-character separator (the only form
the source uses): split at every occurrence, keeping empty pieces. -/
def pySplit (sep : Char) (s : PyStr) : List PyStr :=
  List.splitOn sep s

/-- `sub` is a leading segment of `s`. -/
def leadsWith : PyStr → PyStr → Bool
  | [], _ => true
  | _ :: _, [] => false
  | c :: cs, d :: ds => if c = d then leadsWith cs ds else false

/-- Python `sub in s`: `sub` occurs contiguously somewhere in `s`. -/
def containsSub (s sub : PyStr) : Bool :=
  match s with
  | [] => leadsWith sub []
  | _ :: rest => leadsWith sub s || containsSub rest sub

/-- The observable outcome of classifying one received line
(`MainWindow.parse_response`).  An update constructor records exactly
the widget state the source overwrites; `raw` records that the line
produced no instrument-state update and survives only as the raw log
entry made by `handle_data`. -/
inductive Event where
  /-- Both analog channel displays are overwritten with the two parsed
  millivolt values. -/
  | analogUpdate (ch1 ch2 : Int)
  /-- The listed digital inputs (by display name, in the fixed order of
  the source's `inputs_map`) are overwritten with the listed booleans. -/
  | digitalUpdate (updates : List (PyStr × Bool))
  /-- The interrupt-counter display is overwritten with the parsed value. -/
  | interruptUpdate (count : Int)
  /-- No instrument-state update: the line is only a raw log entry. -/
  | raw (line : PyStr)
  deriving DecidableEq

/-- The analog branch of `parse_response`:
`parts = data.split(','); ch1 = int(parts[0].split(':')[1]);
ch2 = int(parts[1].split(':')[1])`, with every `IndexError`/`ValueError`
collapsed to `none` (the source catches them before any widget write). -/
def parseAnalog (data : PyStr) : Option (Int × Int) :=
  match pySplit ',' data with
  | p0 :: p1 :: _ =>
    match (pySplit ':' p0)[1]?, (pySplit ':' p1)[1]? with
    | some s0, some s1 =>
      match pyInt s0, pyInt s1 with
      | some a, some b => some (a, b)
      | _, _ => none
    | _, _ => none
  | _ => none

/-- One `key, val = part.split(':'); values[key] = int(val)` step of the
digital branch: the unpacking demands exactly one colon. -/
def parseKV (part : PyStr) : Option (PyStr × Int) :=
  match pySplit ':' part with
  | [k, v] => (pyInt v).map fun n => (k, n)
  | _ => none

/-- Python dict lookup for a dict built by inserting the pairs of `kvs`
in order: the **last** binding of a key wins. -/
def dictGet (kvs : List (PyStr × Int)) (k : PyStr) : Option Int :=
  match kvs with
  | [] => none
  | (k', v) :: rest =>
    match dictGet rest k with
    | some v' => some v'
    | none => if k' = k then some v else none

/-- The source's `inputs_map`: short key → display name, in source order. -/
def inputsMap : List (PyStr × PyStr) :=
  [(str "B1", str "Button 1"), (str "B2", str "Button 2"),
   (str "S1", str "Sensor 1"), (str "S2", str "Sensor 2")]

/-- The `for part in parts` loop of the digital branch: parse every
`key:int` segment in order; the first failure raises, aborting the
whole loop. -/
def parseKVs : List PyStr → Option (List (PyStr × Int))
  | [] => some []
  | p :: ps =>
    match parseKV p, parseKVs ps with
    | some kv, some rest => some (kv :: rest)
    | _, _ => none

/-- The digital branch of `parse_response`: split the line on commas,
parse every `key:int` segment into a dict, then update each known input
that is present (`bool(values[key])`, i.e. non-zero = true).  Any
parse failure aborts the whole branch before a single widget write. -/
def parseDigital (data : PyStr) : Option (List (PyStr × Bool)) :=
  (parseKVs (pySplit ',' data)).map fun kvs =>
    inputsMap.filterMap fun kn =>
      (dictGet kvs kn.1).map fun v => (kn.2, v != 0)

/-- Trigger of the analog rule: `"CH1:" in data and "CH2:" in data`. -/
def analogTrig (data : PyStr) : Bool :=
  containsSub data (str "CH1:") && containsSub data (str "CH2:")

/-- Trigger of the digital rule: `"B1:" in data and "B2:" in data`. -/
def digitalTrig (data : PyStr) : Bool :=
  containsSub data (str "B1:") && containsSub data (str "B2:")

/-- `MainWindow.parse_response`, the response classifier.  The four
rules are tried in source order (analog, digital, bare integer,
nothing), first match wins, and a matched rule whose parsing fails
yields no update (`Event.raw`): the source's bare `except: pass`. -/
def parse_response (data : PyStr) : Event :=
  if analogTrig data then
    match parseAnalog data with
    | some (a, b) => .analogUpdate a b
    | none => .raw data
  else if digitalTrig data then
    match parseDigital data with
    | some ups => .digitalUpdate ups
    | none => .raw data
  else if pyIsdigit data then
    match pyInt data with
    | some n => .interruptUpdate n
    | none => .raw data
  else .raw data

/-- First-match lookup of a key among the (distinct) keys of a
key/boolean association list; used to state what the digital rule must
recover. -/
def lookupKey (pairs : List (PyStr × Bool)) (k : PyStr) : Option Bool :=
  match pairs with
  | [] => none
  | (k', b) :: rest => if k' = k then some b else lookupKey rest k

/-- The single digit character of a 0/1 value. -/
def bitChar (b : Bool) : Char := if b then '1' else '0'

/-- The integer a 0/1 value denotes. -/
def bitVal (b : Bool) : Int := if b then 1 else 0

/-- The last-known instrument state the UI displays: two analog
channels, the four digital inputs keyed by display name, and the
interrupt counter. -/
structure InstrumentState where
  analog1 : Int
  analog2 : Int
  digital : List (PyStr × Bool)
  interrupt : Int
  deriving DecidableEq

/-- Overwrite one digital input (the widgets form a fixed table, so the
update replaces in place). -/
def setDigital (m : List (PyStr × Bool)) (k : PyStr) (v : Bool) :
    List (PyStr × Bool) :=
  m.map fun kv => if kv.1 = k then (k, v) else kv

/-- Apply the widget writes of one classified line to the instrument
state.  `Event.raw` writes nothing. -/
def applyEvent (st : InstrumentState) (e : Event) : InstrumentState :=
  match e with
  | .analogUpdate a b => { st with analog1 := a, analog2 := b }
  | .digitalUpdate ups =>
    { st with digital := ups.foldl (fun m nv => setDigital m nv.1 nv.2) st.digital }
  | .interruptUpdate n => { st with interrupt := n }
  | .raw _ => st

/-- The `serial.Serial` handle as far as the worker observes it. -/
structure SerialPort where
  is_open : Bool
  deriving DecidableEq

/-- `SerialWorker` state: the optional port handle and the running flag. -/
structure WorkerState where
  serial_port : Option SerialPort
  is_running : Bool
  deriving DecidableEq

/-- Observable outputs of the worker and of the window's send path:
Qt signals, bytes written to the device, and the "Not Connected"
warning dialog. -/
inductive Sig where
  | dataReceived (line : PyStr)
  | errorOccurred (msg : PyStr)
  | connectionLost
  | write (bytes : PyStr)
  | warnNotConnected
  deriving DecidableEq

/-- `self.serial_port and self.serial_port.is_open`. -/
def portOpen (st : WorkerState) : Bool :=
  match st.serial_port with
  | some p => p.is_open
  | none => false

/-- `SerialWorker.disconnect`: clear the running flag, then close the
port if it is open.  It emits no signal. -/
def disconnect (st : WorkerState) : WorkerState × List Sig :=
  let st1 : WorkerState := { st with is_running := false }
  if portOpen st1 then
    ({ st1 with serial_port := some { is_open := false } }, [])
  else (st1, [])

/-- `SerialWorker.send_command`: write `command + "\n"` when the port is
open, silently do nothing otherwise.  (In this model the device accepts
the write; a write fault would emit a send-error signal, a path none of
the verified properties depends on.) -/
def send_command (st : WorkerState) (command : PyStr) : WorkerState × List Sig :=
  if portOpen st then (st, [Sig.write (command ++ ['\n'])])
  else (st, [])

/-- `MainWindow.send_command`: route the command to the worker when the
connection is up, otherwise show the "Not Connected" warning and send
nothing. -/
def mwSendCommand (st : WorkerState) (cmd : PyStr) : WorkerState × List Sig :=
  if st.is_running then send_command st cmd
  else (st, [Sig.warnNotConnected])

/-- A sequence of sends through the window's send path. -/
def sendMany (st : WorkerState) (cmds : List PyStr) : WorkerState × List Sig :=
  match cmds with
  | [] => (st, [])
  | c :: cs =>
    let r1 := mwSendCommand st c
    let r2 := sendMany r1.1 cs
    (r2.1, r1.2 ++ r2.2)

/-- What one iteration of the polling loop observes on the wire:
nothing pending, one terminated line, or an I/O fault raised by
`in_waiting`/`readline`/`decode`. -/
inductive Poll where
  | noData
  | line (raw : PyStr)
  | ioError (msg : PyStr)
  deriving DecidableEq

/-- One iteration of `SerialWorker.run`'s loop body: with the port open,
a received line is decoded, stripped and emitted unless empty; an I/O
fault emits the read-error signal then `connection_lost` and clears the
running flag. -/
def runStep (st : WorkerState) (p : Poll) : WorkerState × List Sig :=
  if portOpen st then
    match p with
    | .noData => (st, [])
    | .line raw =>
      let data := pyStrip raw
      if data.isEmpty then (st, []) else (st, [Sig.dataReceived data])
    | .ioError msg =>
      ({ st with is_running := false },
       [Sig.errorOccurred (str "Read error: " ++ msg), Sig.connectionLost])
  else (st, [])

/-- `SerialWorker.run`: iterate the loop body over the polled inputs for
as long as `is_running` holds. -/
def run (st : WorkerState) (polls : List Poll) : WorkerState × List Sig :=
  match polls with
  | [] => (st, [])
  | p :: ps =>
    if st.is_running then
      let r1 := runStep st p
      let r2 := run r1.1 ps
      (r2.1, r1.2 ++ r2.2)
    else (st, [])

/-! ## Helper lemmas about the string model -/

theorem not_space_of_digit {c : Char} (h : c.isDigit = true) : pyIsSpace c = false := by
  cases hsp : pyIsSpace c with
  | false => rfl
  | true =>
    exfalso
    unfold pyIsSpace at hsp
    simp only [Bool.or_eq_true, decide_eq_true_eq] at hsp
    rcases hsp with ((((rfl | rfl) | rfl) | rfl) | rfl) | rfl <;> exact absurd h (by decide)

theorem dropWhile_space_id (l : PyStr) (h : ∀ c ∈ l, pyIsSpace c = false) :
    l.dropWhile pyIsSpace = l := by
  cases l with
  | nil => rfl
  | cons c cs => simp [List.dropWhile_cons, h c (by simp)]

theorem pyStrip_id (l : PyStr) (h : ∀ c ∈ l, pyIsSpace c = false) : pyStrip l = l := by
  unfold pyStrip
  rw [dropWhile_space_id l h,
    dropWhile_space_id l.reverse (fun c hc => h c (List.mem_reverse.mp hc)),
    List.reverse_reverse]

theorem pyIsdigit_true (l : PyStr) (hne : l ≠ []) (h : ∀ c ∈ l, c.isDigit = true) :
    pyIsdigit l = true := by
  unfold pyIsdigit
  cases l with
  | nil => exact absurd rfl hne
  | cons c cs =>
    have hall : (c :: cs).all Char.isDigit = true :=
      List.all_eq_true.mpr (fun a ha => h a ha)
    simp [hall]

theorem pyInt_digits (l : PyStr) (hne : l ≠ []) (h : ∀ c ∈ l, c.isDigit = true) :
    pyInt l = some ((digitsVal l : Nat) : Int) := by
  have hstrip : pyStrip l = l :=
    pyStrip_id l (fun c hc => not_space_of_digit (h c hc))
  unfold pyInt
  simp only [hstrip, pyIsdigit_true l hne h, if_true]

theorem leadsWith_self_append (sub r : PyStr) : leadsWith sub (sub ++ r) = true := by
  induction sub with
  | nil => rfl
  | cons c cs ih => simp [leadsWith, ih]

theorem containsSub_of_leads (s sub : PyStr) (h : leadsWith sub s = true) :
    containsSub s sub = true := by
  cases s with
  | nil => exact h
  | cons c cs => simp [containsSub, h]

theorem containsSub_append (l sub r : PyStr) :
    containsSub (l ++ (sub ++ r)) sub = true := by
  induction l with
  | nil => exact containsSub_of_leads _ _ (leadsWith_self_append sub r)
  | cons c cs ih => simp [containsSub, ih]

theorem mem_of_leads (sub : PyStr) : ∀ (s : PyStr), leadsWith sub s = true →
    ∀ c ∈ sub, c ∈ s := by
  induction sub with
  | nil => simp
  | cons c cs ih =>
    intro s h e he
    cases s with
    | nil => exact absurd h (by simp [leadsWith])
    | cons d ds =>
      unfold leadsWith at h
      split at h
      · rcases List.mem_cons.mp he with rfl | hmem
        · simp_all
        · exact List.mem_cons_of_mem d (ih ds h e hmem)
      · exact absurd h (by simp)

theorem mem_of_containsSub (s sub : PyStr) (h : containsSub s sub = true) :
    ∀ c ∈ sub, c ∈ s := by
  induction s with
  | nil =>
    intro c hc
    cases sub with
    | nil => simp at hc
    | cons d ds => exact absurd h (by simp [containsSub, leadsWith])
  | cons d ds ih =>
    unfold containsSub at h
    rw [Bool.or_eq_true] at h
    rcases h with h1 | h2
    · exact mem_of_leads sub _ h1
    · exact fun c hc => List.mem_cons_of_mem d (ih h2 c hc)

theorem not_containsSub (s sub : PyStr) (c : Char) (hc : c ∈ sub) (hs : c ∉ s) :
    containsSub s sub = false := by
  cases hb : containsSub s sub with
  | false => rfl
  | true => exact absurd (mem_of_containsSub s sub hb c hc) hs

theorem trig_false_of_no_colon (data : PyStr) (h : ':' ∉ data) :
    analogTrig data = false ∧ digitalTrig data = false := by
  refine ⟨?_, ?_⟩
  · unfold analogTrig
    rw [not_containsSub data (str "CH1:") ':' (by decide) h]
    rfl
  · unfold digitalTrig
    rw [not_containsSub data (str "B1:") ':' (by decide) h]
    rfl

theorem pySplit_single (sep : Char) (l : PyStr) (h : sep ∉ l) :
    pySplit sep l = [l] := by
  unfold pySplit List.splitOn
  refine List.splitOnP_eq_single _ l fun x hx hbeq => ?_
  rw [beq_iff_eq] at hbeq
  exact h (hbeq ▸ hx)

theorem pySplit_sep_append (sep : Char) (pre suf : PyStr) (h : sep ∉ pre) :
    pySplit sep (pre ++ sep :: suf) = pre :: pySplit sep suf := by
  unfold pySplit List.splitOn
  refine List.splitOnP_first _ pre (fun x hx hbeq => ?_) sep (by simp) suf
  rw [beq_iff_eq] at hbeq
  exact h (hbeq ▸ hx)

theorem pySplit_two (sep : Char) (a b : PyStr) (ha : sep ∉ a) (hb : sep ∉ b) :
    pySplit sep (a ++ sep :: b) = [a, b] := by
  rw [pySplit_sep_append sep a b ha, pySplit_single sep b hb]

theorem pySplit_intercalate (sep : Char) (ls : List PyStr)
    (h : ∀ l ∈ ls, sep ∉ l) (hne : ls ≠ []) :
    pySplit sep (List.intercalate [sep] ls) = ls :=
  List.splitOn_intercalate ls sep h hne

theorem digit_ne_sep {c : Char} (h : c.isDigit = true) : c ≠ ',' ∧ c ≠ ':' := by
  constructor <;> intro he <;> subst he <;> exact absurd h (by decide)

theorem sep_not_mem_digits {l : PyStr} (h : ∀ c ∈ l, c.isDigit = true) :
    ',' ∉ l ∧ ':' ∉ l := by
  constructor <;> intro hmem
  · exact absurd (h ',' hmem) (by decide)
  · exact absurd (h ':' hmem) (by decide)

/-- Evaluation of the analog branch once the shapes of the first two
comma segments are known. -/
theorem parseAnalog_pieces (data p0 p1 : PyStr) (rest : List PyStr)
    (hsplit : pySplit ',' data = p0 :: p1 :: rest)
    (k0 d0 k1 d1 : PyStr)
    (h0 : pySplit ':' p0 = [k0, d0]) (h1 : pySplit ':' p1 = [k1, d1])
    (hd0 : d0 ≠ []) (hd0d : ∀ c ∈ d0, c.isDigit = true)
    (hd1 : d1 ≠ []) (hd1d : ∀ c ∈ d1, c.isDigit = true) :
    parseAnalog data = some ((digitsVal d0 : Int), (digitsVal d1 : Int)) := by
  unfold parseAnalog
  rw [hsplit]
  simp [h0, h1, pyInt_digits d0 hd0 hd0d, pyInt_digits d1 hd1 hd1d]

/-! ## Worker-level lemmas -/

theorem sendMany_not_running (st : WorkerState) (h : st.is_running = false)
    (cmds : List PyStr) :
    sendMany st cmds = (st, List.replicate cmds.length Sig.warnNotConnected) := by
  induction cmds with
  | nil => rfl
  | cons c cs ih => simp [sendMany, mwSendCommand, h, ih, List.replicate]

theorem disconnect_not_running (st : WorkerState) :
    (disconnect st).1.is_running = false := by
  unfold disconnect
  dsimp only
  split <;> rfl

/-! ## Claim theorems -/

/-- **C2.** For every line matched by the analog rule (contains both
`CH1:` and `CH2:`) or by the digital rule (contains both `B1:` and
`B2:`) whose numeric parsing fails at any point, classification
produces no instrument-state update at all: the result is the raw
event, and applying it leaves any instrument state unchanged
(all-or-nothing per line; the caught exception never escapes, which the
total function `parse_response` models). -/
theorem matched_rule_parse_failure_no_update (st : InstrumentState) (data : PyStr)
    (h : (analogTrig data = true ∧ parseAnalog data = none)
       ∨ (analogTrig data = false ∧ digitalTrig data = true ∧ parseDigital data = none)) :
    parse_response data = Event.raw data ∧
      applyEvent st (parse_response data) = st := by
  have hres : parse_response data = Event.raw data := by
    rcases h with ⟨h1, h2⟩ | ⟨h1, h2, h3⟩
    · simp [parse_response, h1, h2]
    · simp [parse_response, h1, h2, h3]
  exact ⟨hres, by rw [hres]; rfl⟩

/-- Witness for C2 at the spec's own example `CH1:abc,CH2:10`. -/
theorem matched_rule_parse_failure_no_update_witness :
    parse_response (str "CH1:abc,CH2:10") = Event.raw (str "CH1:abc,CH2:10") ∧
      applyEvent ⟨0, 0, [], 0⟩ (parse_response (str "CH1:abc,CH2:10")) = ⟨0, 0, [], 0⟩ :=
  matched_rule_parse_failure_no_update ⟨0, 0, [], 0⟩ (str "CH1:abc,CH2:10")
    (Or.inl ⟨by decide, by decide⟩)

/-- **C5.** A send while the connection is not open fails and the
failure is reported: at the worker level a closed port suppresses the
write, and the window's send path reports the failure (the "Not
Connected" warning, the code's realization of `WriteError`) whenever
the connection flag is down.  In particular, after `disconnect()` every
subsequent send yields exactly the failure report and never a write. -/
theorem send_while_closed_write_error (st : WorkerState) (cmd : PyStr)
    (cmds : List PyStr) :
    (portOpen st = false → send_command st cmd = (st, []))
  ∧ (st.is_running = false → mwSendCommand st cmd = (st, [Sig.warnNotConnected]))
  ∧ mwSendCommand (disconnect st).1 cmd = ((disconnect st).1, [Sig.warnNotConnected])
  ∧ sendMany (disconnect st).1 cmds =
      ((disconnect st).1, List.replicate cmds.length Sig.warnNotConnected) := by
  refine ⟨fun h => by simp [send_command, h], fun h => by simp [mwSendCommand, h], ?_, ?_⟩
  · simp [mwSendCommand, disconnect_not_running st]
  · exact sendMany_not_running _ (disconnect_not_running st) cmds

/-- Witness for C5: on a closed, stopped worker the write is suppressed
and the warning is reported. -/
theorem send_while_closed_write_error_witness :
    send_command ⟨some ⟨false⟩, false⟩ (str "AIN:ALL?") = (⟨some ⟨false⟩, false⟩, []) ∧
      mwSendCommand ⟨some ⟨false⟩, false⟩ (str "AIN:ALL?")
        = (⟨some ⟨false⟩, false⟩, [Sig.warnNotConnected]) := by
  have h := send_while_closed_write_error ⟨some ⟨false⟩, false⟩ (str "AIN:ALL?") []
  exact ⟨h.1 (by decide), h.2.1 (by decide)⟩

/-- **C8.** `disconnect` is idempotent from any worker state: one call
already emits no signal, and a second call changes nothing and emits no
signal either. -/
theorem disconnect_idempotent (st : WorkerState) :
    (disconnect st).2 = [] ∧
      disconnect (disconnect st).1 = ((disconnect st).1, []) := by
  constructor
  · unfold disconnect
    dsimp only
    split <;> rfl
  · unfold disconnect
    cases hp : st.serial_port with
    | none => simp [portOpen, hp]
    | some p => cases hb : p.is_open <;> simp [portOpen, hp, hb]

/-- **C10.** The reader never delivers an empty line: a polled line that
is empty after stripping is dropped without a signal, and every
`data_received` payload the run loop ever emits is non-empty. -/
theorem reader_drops_empty_lines (st : WorkerState) (polls : List Poll)
    (rawLine s : PyStr) :
    (pyStrip rawLine = [] → (runStep st (Poll.line rawLine)).2 = [])
  ∧ (Sig.dataReceived s ∈ (run st polls).2 → s ≠ []) := by
  constructor
  · intro h
    unfold runStep
    split
    · simp [h]
    · rfl
  · induction polls generalizing st with
    | nil => intro h; simp [run] at h
    | cons p ps ih =>
      intro h
      unfold run at h
      split at h
      · rw [List.mem_append] at h
        rcases h with h1 | h2
        · unfold runStep at h1
          split at h1
          · cases p with
            | noData => simp at h1
            | line rawp =>
              by_cases he : (pyStrip rawp).isEmpty
              · simp [he] at h1
              · simp [he] at h1
                intro hnil
                rw [← h1, hnil] at he
                exact he rfl
            | ioError m => simp at h1
          · simp at h1
        · exact ih _ h2
      · simp at h

/-- Witness for C10: a whitespace-only line is dropped, and a received
payload is non-empty. -/
theorem reader_drops_empty_lines_witness :
    (runStep ⟨some ⟨true⟩, true⟩ (Poll.line (str "  \n"))).2 = [] ∧
      str "ok" ≠ [] := by
  have h := reader_drops_empty_lines ⟨some ⟨true⟩, true⟩
    [Poll.line (str " ok \n")] (str "  \n") (str "ok")
  exact ⟨h.1 (by decide), h.2 (by decide)⟩

/-- Commas occur in neither half of a `key ++ ":" ++ digits` segment. -/
theorem comma_not_mem_seg (k ds : PyStr) (hk : ',' ∉ k)
    (hd : ∀ c ∈ ds, c.isDigit = true) : ',' ∉ k ++ ':' :: ds := by
  intro hm
  rcases List.mem_append.mp hm with hm | hm
  · exact hk hm
  · rcases List.mem_cons.mp hm with hm | hm
    · exact absurd hm (by decide)
    · exact (sep_not_mem_digits hd).1 hm

/-- Splitting a `key ++ ":" ++ digits` segment on the colon recovers the
key and the digits. -/
theorem pySplit_colon_seg (k ds : PyStr) (hk : ':' ∉ k)
    (hd : ∀ c ∈ ds, c.isDigit = true) :
    pySplit ':' (k ++ ':' :: ds) = [k, ds] :=
  pySplit_two ':' k ds hk (sep_not_mem_digits hd).2

/-- Evaluation of the classifier when the analog rule fires and its
parsing succeeds. -/
theorem parse_response_analog (data : PyStr) (a b : Int)
    (htrig : analogTrig data = true) (hpa : parseAnalog data = some (a, b)) :
    parse_response data = Event.analogUpdate a b := by
  unfold parse_response
  rw [htrig, hpa]
  rfl

/-- **C3.** Every well-formed line `CH1:<a>,CH2:<b>` with `a` and `b`
(written as decimal digit strings) in `[0, 3300]` classifies to an
analog update carrying exactly the pair `(a, b)` for channels 1 and 2. -/
theorem analog_wellformed_pair (ds0 ds1 line : PyStr)
    (h0ne : ds0 ≠ []) (h0d : ∀ c ∈ ds0, c.isDigit = true)
    (h1ne : ds1 ≠ []) (h1d : ∀ c ∈ ds1, c.isDigit = true)
    (hr0 : digitsVal ds0 ≤ 3300) (hr1 : digitsVal ds1 ≤ 3300)
    (hline : line = (str "CH1:" ++ ds0) ++ (',' :: (str "CH2:" ++ ds1))) :
    parse_response line =
      Event.analogUpdate (digitsVal ds0) (digitsVal ds1) := by
  have hc1 : containsSub line (str "CH1:") = true := by
    rw [hline]
    have h := containsSub_append [] (str "CH1:") (ds0 ++ (',' :: (str "CH2:" ++ ds1)))
    simpa [List.append_assoc] using h
  have hc2 : containsSub line (str "CH2:") = true := by
    rw [hline]
    have h := containsSub_append ((str "CH1:" ++ ds0) ++ [',']) (str "CH2:") ds1
    simpa [List.append_assoc] using h
  have htrig : analogTrig line = true := by
    unfold analogTrig
    rw [hc1, hc2]
    rfl
  have hA : ',' ∉ str "CH1:" ++ ds0 := by
    intro hm
    rcases List.mem_append.mp hm with hm | hm
    · exact absurd hm (by decide)
    · exact (sep_not_mem_digits h0d).1 hm
  have hB : ',' ∉ str "CH2:" ++ ds1 := by
    intro hm
    rcases List.mem_append.mp hm with hm | hm
    · exact absurd hm (by decide)
    · exact (sep_not_mem_digits h1d).1 hm
  have hsplit : pySplit ',' line = [str "CH1:" ++ ds0, str "CH2:" ++ ds1] := by
    rw [hline]
    exact pySplit_two ',' _ _ hA hB
  have e0 : str "CH1:" ++ ds0 = ['C', 'H', '1'] ++ ':' :: ds0 := rfl
  have e1 : str "CH2:" ++ ds1 = ['C', 'H', '2'] ++ ':' :: ds1 := rfl
  have h0 : pySplit ':' (str "CH1:" ++ ds0) = [['C', 'H', '1'], ds0] := by
    rw [e0]; exact pySplit_colon_seg _ _ (by decide) h0d
  have h1 : pySplit ':' (str "CH2:" ++ ds1) = [['C', 'H', '2'], ds1] := by
    rw [e1]; exact pySplit_colon_seg _ _ (by decide) h1d
  exact parse_response_analog line _ _ htrig
    (parseAnalog_pieces line _ _ [] hsplit _ _ _ _ h0 h1 h0ne h0d h1ne h1d)

/-- Witness for C3 at the spec's end-to-end example line. -/
theorem analog_wellformed_pair_witness :
    parse_response (str "CH1:1650,CH2:2200") = Event.analogUpdate 1650 2200 :=
  (analog_wellformed_pair (str "1650") (str "2200") (str "CH1:1650,CH2:2200")
    (by decide) (by decide) (by decide) (by decide) (by decide) (by decide)
    (by decide)).trans (by decide)

/-- **C9.** The analog rule is positional, not keyed: on a line that
satisfies the analog trigger and consists of comma-joined `key:digits`
segments, channel 1 takes the numeric suffix of the *first* segment and
channel 2 that of the *second*, whatever keys label them, and all
segments beyond the second are ignored. -/
theorem analog_rule_positional (k0 k1 ds0 ds1 line : PyStr) (rest : List PyStr)
    (hk0 : ':' ∉ k0 ∧ ',' ∉ k0) (hk1 : ':' ∉ k1 ∧ ',' ∉ k1)
    (h0ne : ds0 ≠ []) (h0d : ∀ c ∈ ds0, c.isDigit = true)
    (h1ne : ds1 ≠ []) (h1d : ∀ c ∈ ds1, c.isDigit = true)
    (hrest : ∀ p ∈ rest, ',' ∉ p)
    (hline : line =
      List.intercalate [','] ((k0 ++ ':' :: ds0) :: (k1 ++ ':' :: ds1) :: rest))
    (htrig : analogTrig line = true) :
    parse_response line =
      Event.analogUpdate (digitsVal ds0) (digitsVal ds1) := by
  have hmem : ∀ l ∈ (k0 ++ ':' :: ds0) :: (k1 ++ ':' :: ds1) :: rest, ',' ∉ l := by
    intro l hl
    rcases List.mem_cons.mp hl with rfl | hl
    · exact comma_not_mem_seg _ _ hk0.2 h0d
    · rcases List.mem_cons.mp hl with rfl | hl
      · exact comma_not_mem_seg _ _ hk1.2 h1d
      · exact hrest l hl
  have hsplit : pySplit ',' line =
      (k0 ++ ':' :: ds0) :: (k1 ++ ':' :: ds1) :: rest := by
    rw [hline]
    exact pySplit_intercalate ',' _ hmem (by simp)
  exact parse_response_analog line _ _ htrig
    (parseAnalog_pieces line _ _ rest hsplit _ _ _ _
      (pySplit_colon_seg _ _ hk0.1 h0d) (pySplit_colon_seg _ _ hk1.1 h1d)
      h0ne h0d h1ne h1d)

/-- Witness for C9: `CH2:5,CH1:3` yields the positional pair `(5, 3)`. -/
theorem analog_rule_positional_witness :
    parse_response (str "CH2:5,CH1:3") = Event.analogUpdate 5 3 :=
  (analog_rule_positional (str "CH2") (str "CH1") (str "5") (str "3")
    (str "CH2:5,CH1:3") [] ⟨by decide, by decide⟩ ⟨by decide, by decide⟩
    (by decide) (by decide) (by decide) (by decide) (by simp)
    (by decide) (by decide)).trans (by decide)

/-- **C4.** A line of decimal digits classifies to an interrupt-counter
update with the parsed unsigned value; a line containing a non-digit
character that matches neither the analog nor the digital trigger
classifies to the raw event carrying the line verbatim. -/
theorem digit_line_interrupt (data : PyStr) :
    (data ≠ [] → (∀ c ∈ data, c.isDigit = true) →
      parse_response data = Event.interruptUpdate (digitsVal data))
  ∧ ((∃ c ∈ data, c.isDigit = false) → analogTrig data = false →
      digitalTrig data = false → parse_response data = Event.raw data) := by
  constructor
  · intro hne hd
    have htrig := trig_false_of_no_colon data (sep_not_mem_digits hd).2
    simp [parse_response, htrig.1, htrig.2, pyIsdigit_true data hne hd,
      pyInt_digits data hne hd]
  · rintro ⟨c, hc, hcd⟩ ha hb
    have hall : data.all Char.isDigit = false := by
      cases hall : data.all Char.isDigit with
      | false => rfl
      | true => exact absurd (List.all_eq_true.mp hall c hc) (by simp [hcd])
    have hnd : pyIsdigit data = false := by simp [pyIsdigit, hall]
    simp [parse_response, ha, hb, hnd]

/-- Witness for C4: `"042"` parses to 42, `"hello"` stays raw. -/
theorem digit_line_interrupt_witness :
    parse_response (str "042") = Event.interruptUpdate 42 ∧
      parse_response (str "hello") = Event.raw (str "hello") := by
  constructor
  · exact ((digit_line_interrupt (str "042")).1 (by decide) (by decide)).trans (by decide)
  · exact (digit_line_interrupt (str "hello")).2 ⟨'h', by decide, by decide⟩
      (by decide) (by decide)

/-! ## Digital-branch lemmas (C1) -/

theorem parse_response_digital (data : PyStr) (ups : List (PyStr × Bool))
    (ha : analogTrig data = false) (hd : digitalTrig data = true)
    (hpd : parseDigital data = some ups) :
    parse_response data = Event.digitalUpdate ups := by
  unfold parse_response
  rw [ha, hd, hpd]
  rfl

theorem parseKV_seg (k : PyStr) (b : Bool) (hk : ':' ∉ k) :
    parseKV (k ++ ':' :: [bitChar b]) = some (k, bitVal b) := by
  unfold parseKV
  rw [pySplit_colon_seg k [bitChar b] hk (by cases b <;> decide)]
  have hv : pyInt [bitChar b] = some (bitVal b) := by cases b <;> decide
  simp [hv]

theorem parseKVs_seg (pairs : List (PyStr × Bool))
    (hk : ∀ kb ∈ pairs, ':' ∉ kb.1) :
    parseKVs (pairs.map fun kb => kb.1 ++ ':' :: [bitChar kb.2])
      = some (pairs.map fun kb => (kb.1, bitVal kb.2)) := by
  induction pairs with
  | nil => rfl
  | cons kb rest ih =>
    rw [List.map_cons, List.map_cons]
    unfold parseKVs
    rw [parseKV_seg kb.1 kb.2 (hk kb (by simp)),
      ih (fun x hx => hk x (by simp [hx]))]

theorem keys_of_mapped (rest : List (PyStr × Bool)) :
    (rest.map fun kb => (kb.1, bitVal kb.2)).map Prod.fst = rest.map Prod.fst := by
  induction rest with
  | nil => rfl
  | cons x xs ih => simp [ih]

theorem dictGet_not_mem (kvs : List (PyStr × Int)) (k : PyStr)
    (h : k ∉ kvs.map Prod.fst) : dictGet kvs k = none := by
  induction kvs with
  | nil => rfl
  | cons kv rest ih =>
    obtain ⟨k0, v⟩ := kv
    unfold dictGet
    rw [ih (fun hm => h (by simp [hm]))]
    have hne : k0 ≠ k := fun he => h (by simp [he])
    simp [hne]

theorem dictGet_pairs (pairs : List (PyStr × Bool)) (k : PyStr)
    (hnd : (pairs.map Prod.fst).Nodup) :
    dictGet (pairs.map fun kb => (kb.1, bitVal kb.2)) k
      = (lookupKey pairs k).map bitVal := by
  induction pairs with
  | nil => rfl
  | cons kb rest ih =>
    obtain ⟨k0, b⟩ := kb
    have hni : k0 ∉ rest.map Prod.fst := (List.nodup_cons.mp hnd).1
    have hnd2 : (rest.map Prod.fst).Nodup := (List.nodup_cons.mp hnd).2
    rw [List.map_cons]
    by_cases hk : k0 = k
    · subst hk
      have hdg : dictGet (rest.map fun kb => (kb.1, bitVal kb.2)) k0 = none :=
        dictGet_not_mem _ _ (by rw [keys_of_mapped]; exact hni)
      unfold dictGet lookupKey
      simp [hdg]
    · unfold dictGet lookupKey
      rw [ih hnd2]
      cases hl : lookupKey rest k with
      | none => simp [hk, hl]
      | some b2 => simp [hk, hl]

theorem parseDigital_pairs (pairs : List (PyStr × Bool)) (line : PyStr)
    (hline : line =
      List.intercalate [','] (pairs.map fun kb => kb.1 ++ ':' :: [bitChar kb.2]))
    (hne : pairs ≠ [])
    (hkeys : ∀ kb ∈ pairs, ':' ∉ kb.1 ∧ ',' ∉ kb.1)
    (hnd : (pairs.map Prod.fst).Nodup) :
    parseDigital line = some (inputsMap.filterMap fun kn =>
      (lookupKey pairs kn.1).map fun b => (kn.2, b)) := by
  have hsplit : pySplit ',' line = pairs.map fun kb => kb.1 ++ ':' :: [bitChar kb.2] := by
    rw [hline]
    refine pySplit_intercalate ',' _ ?_ (by simp [hne])
    intro l hl
    rcases List.mem_map.mp hl with ⟨kb, hkb, rfl⟩
    exact comma_not_mem_seg _ _ (hkeys kb hkb).2 (by cases kb.2 <;> decide)
  have hpt : ∀ kn : PyStr × PyStr,
      ((dictGet (pairs.map fun kb => (kb.1, bitVal kb.2)) kn.1).map
        fun v => (kn.2, v != 0)) = (lookupKey pairs kn.1).map fun b => (kn.2, b) := by
    intro kn
    rw [dictGet_pairs pairs kn.1 hnd]
    cases hb : lookupKey pairs kn.1 with
    | none => rfl
    | some b => cases b <;> rfl
  unfold parseDigital
  rw [hsplit, parseKVs_seg pairs (fun kb hkb => (hkeys kb hkb).1)]
  simp [hpt]

/-- **C1 counterexample.** The claim's own example `B1:1,S2:0` — a
subset of the known keys with 0/1 values — produces **no** digital
update: the digital rule additionally requires the literal substring
`B2:`, so the line falls through to the raw log entry. -/
theorem digital_subset_example_not_updated :
    parse_response (str "B1:1,S2:0") = Event.raw (str "B1:1,S2:0") := by decide

/-- **C1 (amended).** For every line that contains both `B1:` and `B2:`
(and is not captured by the analog rule), built of comma-joined
`key:bit` segments with distinct separator-free keys and 0/1 values,
classification emits boolean digital updates exactly for the known keys
present in the line (non-zero = true), in the fixed order of the
source's `inputs_map`, with no update for absent keys and unknown keys
ignored. -/
theorem digital_present_keys_updated (pairs : List (PyStr × Bool)) (line : PyStr)
    (hline : line =
      List.intercalate [','] (pairs.map fun kb => kb.1 ++ ':' :: [bitChar kb.2]))
    (hne : pairs ≠ [])
    (hkeys : ∀ kb ∈ pairs, ':' ∉ kb.1 ∧ ',' ∉ kb.1)
    (hnd : (pairs.map Prod.fst).Nodup)
    (ha : analogTrig line = false) (hd : digitalTrig line = true) :
    parse_response line = Event.digitalUpdate (inputsMap.filterMap fun kn =>
      (lookupKey pairs kn.1).map fun b => (kn.2, b)) :=
  parse_response_digital line _ ha hd
    (parseDigital_pairs pairs line hline hne hkeys hnd)

/-- Witness for the amended C1: `B1:1,B2:0,S2:0` updates Button 1,
Button 2 and Sensor 2 only (and an unknown key would be ignored). -/
theorem digital_present_keys_updated_witness :
    parse_response (str "B1:1,B2:0,S2:0") =
      Event.digitalUpdate [(str "Button 1", true), (str "Button 2", false),
        (str "Sensor 2", false)] :=
  (digital_present_keys_updated
    [(str "B1", true), (str "B2", false), (str "S2", false)]
    (str "B1:1,B2:0,S2:0") (by decide) (by decide) (by decide) (by decide)
    (by decide) (by decide)).trans (by decide)

/-! ## First-match-wins (C6) -/

theorem pyIsdigit_elim (l : PyStr) (h : pyIsdigit l = true) :
    l ≠ [] ∧ ∀ c ∈ l, c.isDigit = true := by
  unfold pyIsdigit at h
  rw [Bool.and_eq_true] at h
  constructor
  · intro he
    subst he
    simp at h
  · exact List.all_eq_true.mp h.2

/-- **C6.** Classification is first-match-wins over the fixed rule
order analog, digital, bare-integer, raw: whichever trigger fires
first fully determines the shape of the result (in particular a line
satisfying the analog trigger can never produce a digital or interrupt
update, even if it satisfies those triggers as well), every line is
handled by exactly one rule, and the result is a pure function of the
line alone (`parse_response` takes no other argument). -/
theorem classification_first_match_wins (data : PyStr) :
    (analogTrig data = true →
      ((∃ a b, parse_response data = Event.analogUpdate a b) ∨
          parse_response data = Event.raw data)
        ∧ (∀ u, parse_response data ≠ Event.digitalUpdate u)
        ∧ (∀ n, parse_response data ≠ Event.interruptUpdate n))
  ∧ (analogTrig data = false → digitalTrig data = true →
      ((∃ u, parse_response data = Event.digitalUpdate u) ∨
          parse_response data = Event.raw data)
        ∧ (∀ a b, parse_response data ≠ Event.analogUpdate a b)
        ∧ (∀ n, parse_response data ≠ Event.interruptUpdate n))
  ∧ (analogTrig data = false → digitalTrig data = false → pyIsdigit data = true →
      parse_response data = Event.interruptUpdate (digitsVal data))
  ∧ (analogTrig data = false → digitalTrig data = false → pyIsdigit data = false →
      parse_response data = Event.raw data) := by
  refine ⟨?_, ?_, ?_, ?_⟩
  · intro h1
    unfold parse_response
    rw [h1]
    cases hpa : parseAnalog data with
    | none => simp
    | some ab =>
      obtain ⟨a, b⟩ := ab
      exact ⟨Or.inl ⟨a, b, rfl⟩, fun u h => by simp at h, fun n h => by simp at h⟩
  · intro h1 h2
    unfold parse_response
    rw [h1, h2]
    cases hpd : parseDigital data with
    | none => simp
    | some ups =>
      exact ⟨Or.inl ⟨ups, rfl⟩, fun a b h => by simp at h, fun n h => by simp at h⟩
  · intro h1 h2 h3
    obtain ⟨hne, hd⟩ := pyIsdigit_elim data h3
    unfold parse_response
    rw [h1, h2, h3, pyInt_digits data hne hd]
    rfl
  · intro h1 h2 h3
    unfold parse_response
    rw [h1, h2, h3]
    rfl

/-- Witness for C6: a line satisfying both the analog and the digital
trigger is not handled by the digital rule. -/
theorem classification_first_match_wins_witness :
    parse_response (str "CH1:1,CH2:2,B1:1,B2:0")
      ≠ Event.digitalUpdate [(str "Button 1", true), (str "Button 2", false)] := by
  have h := classification_first_match_wins (str "CH1:1,CH2:2,B1:1,B2:0")
  exact (h.1 (by decide)).2.1 _

/-! ## Read-loop lemmas (C7) -/

theorem run_not_running (st : WorkerState) (h : st.is_running = false)
    (polls : List Poll) : run st polls = (st, []) := by
  cases polls with
  | nil => rfl
  | cons p ps => simp [run, h]

theorem run_append (st : WorkerState) (xs ys : List Poll) :
    run st (xs ++ ys) =
      ((run (run st xs).1 ys).1, (run st xs).2 ++ (run (run st xs).1 ys).2) := by
  induction xs generalizing st with
  | nil => simp [run]
  | cons p ps ih =>
    by_cases hr : st.is_running = true
    · have hL : run st (p :: (ps ++ ys)) =
          ((run (runStep st p).1 (ps ++ ys)).1,
            (runStep st p).2 ++ (run (runStep st p).1 (ps ++ ys)).2) := by
        conv_lhs => rw [run]
        rw [if_pos hr]
      have hR : run st (p :: ps) =
          ((run (runStep st p).1 ps).1,
            (runStep st p).2 ++ (run (runStep st p).1 ps).2) := by
        conv_lhs => rw [run]
        rw [if_pos hr]
      rw [List.cons_append, hL, hR, ih]
      simp [List.append_assoc]
    · rw [Bool.not_eq_true] at hr
      rw [run_not_running st hr, run_not_running st hr, run_not_running st hr]
      simp

theorem run_no_error (polls : List Poll) : ∀ st : WorkerState,
    st.is_running = true → portOpen st = true →
    (∀ m, Poll.ioError m ∉ polls) →
    (run st polls).1 = st ∧
      ∀ e ∈ (run st polls).2, ∃ s, e = Sig.dataReceived s := by
  induction polls with
  | nil => exact fun st _ _ _ => ⟨rfl, by simp [run]⟩
  | cons p ps ih =>
    intro st h1 h2 h3
    have hstep : (runStep st p).1 = st ∧
        ∀ e ∈ (runStep st p).2, ∃ s, e = Sig.dataReceived s := by
      cases p with
      | noData => exact ⟨by simp [runStep, h2], by simp [runStep, h2]⟩
      | line rawp =>
        unfold runStep
        rw [h2]
        by_cases he : (pyStrip rawp).isEmpty = true
        · exact ⟨by simp [he], by simp [he]⟩
        · refine ⟨by simp [he], ?_⟩
          intro e hee
          simp [he] at hee
          exact ⟨pyStrip rawp, by simp [hee]⟩
      | ioError m => exact absurd (by simp) (h3 m)
    have h3ps : ∀ m, Poll.ioError m ∉ ps := fun m hm => h3 m (by simp [hm])
    have hih := ih st h1 h2 h3ps
    constructor
    · simp only [run, h1, if_true]
      rw [hstep.1, hih.1]
    · simp only [run, h1, if_true]
      intro e hee
      rw [hstep.1] at hee
      rw [List.mem_append] at hee
      rcases hee with hee | hee
      · exact hstep.2 e hee
      · exact hih.2 e hee

/-- **C7.** An I/O error during a polling read terminates the loop:
the run emits exactly the lines received before the fault, then the
read-error signal and a single `connection_lost`, nothing afterwards;
the running flag is cleared, and the connection handler wired to
`connection_lost` (`handle_disconnect`, which invokes `disconnect`)
leaves the port closed and the worker stopped. -/
theorem read_error_single_disconnect (st : WorkerState) (pre post : List Poll)
    (msg : PyStr) (hrun : st.is_running = true) (hopen : portOpen st = true)
    (hpre : ∀ m, Poll.ioError m ∉ pre) :
    ∃ ds,
      run st (pre ++ Poll.ioError msg :: post) =
        ({ st with is_running := false },
          ds ++ [Sig.errorOccurred (str "Read error: " ++ msg), Sig.connectionLost])
      ∧ (∀ e ∈ ds, ∃ s, e = Sig.dataReceived s)
      ∧ (disconnect { st with is_running := false }).1.is_running = false
      ∧ portOpen (disconnect { st with is_running := false }).1 = false := by
  obtain ⟨hfst, hsnd⟩ := run_no_error pre st hrun hopen hpre
  refine ⟨(run st pre).2, ?_, hsnd, disconnect_not_running _, ?_⟩
  · rw [run_append st pre (Poll.ioError msg :: post), hfst]
    have hstep : runStep st (Poll.ioError msg) =
        ({ st with is_running := false },
          [Sig.errorOccurred (str "Read error: " ++ msg), Sig.connectionLost]) := by
      unfold runStep
      rw [hopen]
      rfl
    have hrest : run { st with is_running := false } post =
        ({ st with is_running := false }, []) := run_not_running _ rfl post
    simp only [run, hrun, if_true, hstep, hrest]
    simp
  · unfold disconnect
    dsimp only
    split
    · simp [portOpen]
    · rename_i hno
      rw [Bool.not_eq_true] at hno
      exact hno

/-- Witness for C7: a concrete run hitting an I/O fault ends with the
running flag down. -/
theorem read_error_single_disconnect_witness :
    (run ⟨some ⟨true⟩, true⟩
        ([Poll.line (str "7")] ++ Poll.ioError (str "boom") :: [])).1.is_running
      = false := by
  obtain ⟨ds, heq, _, _, _⟩ := read_error_single_disconnect ⟨some ⟨true⟩, true⟩
    [Poll.line (str "7")] [] (str "boom") rfl rfl (by simp)
  rw [heq]

end Esp32
